import Mathlib

/-!
Verification of the tenjint VMI runtime core against its specification.

Each Python module relevant to the claims is shallowly embedded: mutable
object state becomes an explicit state structure, method calls become pure
state-transformers, calls into the hypervisor API become entries appended to
an explicit call trace, and raised exceptions become `Except` errors.
-/

deriving instance DecidableEq for Except

namespace Tenjint

/-- `api.PAGE_SHIFT` from `tenjint/api/api.py`. -/
def PAGE_SHIFT : Nat := 12

/-- Lookup in a Python `dict`, modelled as an insertion-ordered association
list: `m[k]` returning `none` for a missing key (`KeyError`). -/
def dget {κ β : Type} [DecidableEq κ] : List (κ × β) → κ → Option β
  | [], _ => none
  | (k', v) :: rest, k => if k' = k then some v else dget rest k

/-- Assignment `m[k] = v` on a Python `dict` modelled as an insertion-ordered
association list: updates the existing binding in place, or appends. -/
def dset {κ β : Type} [DecidableEq κ] : List (κ × β) → κ → β → List (κ × β)
  | [], k, v => [(k, v)]
  | (k', v') :: rest, k, v =>
      if k' = k then (k, v) :: rest else (k', v') :: dset rest k v

/-! ## SLP coordinator (`tenjint/plugins/slp.py`) -/

/-- A `(r, w, x, committed)` entry of `SLPPlugin._perm_requests`. -/
structure PermEntry where
  r : Bool
  w : Bool
  x : Bool
  committed : Bool
deriving DecidableEq, Repr

/-- The fields of an `api.SystemEventSLP` used by the SLP coordinator. -/
structure SlpEvent where
  cpu_num : Nat
  gpa : Nat
  r : Bool
  w : Bool
  x : Bool
  rwx : Bool
deriving DecidableEq, Repr

/-- A call `api.tenjint_api_slp_update(gpa, r, w, x)`. -/
structure SlpUpdateCall where
  gpa : Nat
  r : Bool
  w : Bool
  x : Bool
deriving DecidableEq, Repr

/-- The Python tuple stored into `SLPPlugin._rwx_perm_request[cpu]` by
`_merge_event_perms`: the branch for a page already in `_perm_requests`
stores the whole 4-tuple entry, the other branch stores a 3-tuple. -/
inductive SavedPerms where
  | three (r w x : Bool)
  | four (r w x committed : Bool)
deriving DecidableEq, Repr

/-- Exceptions raised inside the SLP coordinator. -/
inductive SLPError where
  /-- `SLPPermUpdateViolation("W/X mutual exclusion violated")` -/
  | permUpdateViolation
  /-- `RuntimeError("Unexpected second RWX on same CPU")` -/
  | secondRwxOnCpu
  /-- Python `ValueError` from unpacking a 4-tuple into `(gfn, (r, w, x))` -/
  | unpackValueError
  /-- Python `TypeError` from unpacking `None` in `_ss_cb_func` -/
  | missingSlotTypeError
deriving DecidableEq, Repr

/-- Mutable state of `SLPPlugin` relevant to permission handling, plus the
trace of `tenjint_api_slp_update` calls issued to the hypervisor. -/
structure SLPState where
  /-- `self._perm_requests`: gfn → (r, w, x, committed) -/
  permRequests : List (Nat × PermEntry)
  /-- `self._slp_events`: buffered `SystemEventSLP`s -/
  slpEvents : List SlpEvent
  /-- `self._rwx_perm_request`: per-CPU pending slot -/
  rwxPermRequest : List (Option (Nat × SavedPerms))
  /-- whether the per-CPU single-step callback is registered
  (`_enable_single_step` / `_disable_single_step`) -/
  ssArmed : List Bool
  /-- trace of `api.tenjint_api_slp_update` calls, oldest first -/
  updateTrace : List SlpUpdateCall
deriving DecidableEq, Repr

/-- `SLPPlugin._slp_mutex_violation(prev_perms, req_perms)`. -/
def slpMutexViolation (prev req : PermEntry) : Bool :=
  let mw := req.w || prev.w
  let mx := req.x || prev.x
  mw && mx

/-- `SLPPlugin.update_permissions(gpa, r, w, x)`. -/
def updatePermissions (s : SLPState) (gpa : Nat) (r w x : Bool) :
    Except SLPError SLPState :=
  let gfn := gpa >>> PAGE_SHIFT
  let reqPerms : PermEntry := ⟨r, w, x, true⟩
  match dget s.permRequests gfn with
  | some prevPerms =>
      if slpMutexViolation prevPerms reqPerms then
        .error .permUpdateViolation
      else
        .ok { s with
                permRequests := dset s.permRequests gfn
                  ⟨reqPerms.r || prevPerms.r, reqPerms.w || prevPerms.w,
                   reqPerms.x || prevPerms.x, false⟩ }
  | none =>
      .ok { s with
              updateTrace := s.updateTrace ++
                [⟨gpa, reqPerms.r, reqPerms.w, reqPerms.x⟩],
              permRequests := dset s.permRequests gfn reqPerms }

/-- `SLPPlugin._slp_cb_func(event)`: buffer the violation. -/
def slpCbFunc (s : SLPState) (ev : SlpEvent) : SLPState :=
  { s with slpEvents := s.slpEvents ++ [ev] }

/-- One iteration of the loop body of `SLPPlugin._merge_event_perms`. -/
def mergeOneEvent (s : SLPState) (ev : SlpEvent) : Except SLPError SLPState :=
  let gfn := ev.gpa >>> PAGE_SHIFT
  if ev.rwx then
    match (s.rwxPermRequest.getD ev.cpu_num none) with
    | some _ => .error .secondRwxOnCpu
    | none =>
      let slot : Nat × SavedPerms :=
        match dget s.permRequests gfn with
        | some e => (gfn, .four e.r e.w e.x e.committed)
        | none => (gfn, .three true true false)
      .ok { s with
              rwxPermRequest := s.rwxPermRequest.set ev.cpu_num (some slot),
              permRequests := dset s.permRequests gfn ⟨true, true, true, false⟩,
              ssArmed := s.ssArmed.set ev.cpu_num true }
  else
    match dget s.permRequests gfn with
    | some _ => .ok s
    | none =>
      if ev.r || ev.w then
        .ok { s with permRequests := dset s.permRequests gfn ⟨true, true, false, false⟩ }
      else
        .ok { s with permRequests := dset s.permRequests gfn ⟨true, false, true, false⟩ }

/-- The loop of `SLPPlugin._merge_event_perms` over a list of events. -/
def mergeEventList (s : SLPState) : List SlpEvent → Except SLPError SLPState
  | [] => .ok s
  | ev :: rest => do mergeEventList (← mergeOneEvent s ev) rest

/-- `SLPPlugin._merge_event_perms()`. -/
def mergeEventPerms (s : SLPState) : Except SLPError SLPState :=
  mergeEventList s s.slpEvents

/-- The flush loop of `SLPPlugin._cont_hook`: one `slp_update` per
uncommitted entry of `_perm_requests`, in map order. -/
def flushCalls : List (Nat × PermEntry) → List SlpUpdateCall
  | [] => []
  | (gfn, p) :: rest =>
      if p.committed then flushCalls rest
      else ⟨gfn <<< PAGE_SHIFT, p.r, p.w, p.x⟩ :: flushCalls rest

/-- `SLPPlugin._cont_hook()`. -/
def contHook (s : SLPState) : Except SLPError SLPState := do
  let m ← mergeEventPerms s
  .ok { m with
          updateTrace := m.updateTrace ++ flushCalls m.permRequests,
          slpEvents := [],
          permRequests := [] }

/-- `SLPPlugin._ss_cb_func(event)`: the single-step callback installed by the
RWX resolution path. Unpacking `(gfn, (r, w, x)) = self._rwx_perm_request[cpu]`
raises `ValueError` when the stored tuple is the 4-tuple variant and
`TypeError` when the slot is `None`. -/
def ssCbFunc (s : SLPState) (cpu_num : Nat) : Except SLPError SLPState :=
  match s.rwxPermRequest.getD cpu_num none with
  | none => .error .missingSlotTypeError
  | some (_, .four _ _ _ _) => .error .unpackValueError
  | some (gfn, .three r w x) => do
      let s' ← updatePermissions s (gfn <<< PAGE_SHIFT) r w x
      .ok { s' with
              rwxPermRequest := s'.rwxPermRequest.set cpu_num none,
              ssArmed := s'.ssArmed.set cpu_num false }

/-- A fresh `SLPPlugin` permission state for a VM with `k` CPUs. -/
def slpInit (k : Nat) : SLPState :=
  { permRequests := [], slpEvents := [],
    rwxPermRequest := List.replicate k none,
    ssArmed := List.replicate k false, updateTrace := [] }

/-! ## Single-step coordinator (`tenjint/plugins/singlestep.py`) -/

/-- `api.SingleStepMethod`. -/
inductive SingleStepMethod where
  | DEBUG
  | MTF
deriving DecidableEq, Repr

/-- A call to `SingleStepPluginBase._feature_update(enable, method, cpu_num)`,
which toggles the hypervisor MTF or debug single-step feature. -/
structure FeatureUpdateCall where
  enable : Bool
  method : SingleStepMethod
  cpu_num : Nat
deriving DecidableEq, Repr

/-- Exceptions raised by the single-step coordinator. -/
inductive SSError where
  /-- `ValueError("attempting to SS same cpu with multiple methods")` -/
  | methodConflict
  /-- `ValueError` raised by `_feature_update` when the stored method is
  `None` (after the "non-service SS recieved" warning) -/
  | unexpectedMethod
deriving DecidableEq, Repr

/-- Mutable state of `SingleStepPluginBase` plus the trace of
`_feature_update` calls. -/
structure SSState where
  /-- `self._request_id_cntr` -/
  requestIdCntr : Nat
  /-- `self._ss`: per-CPU armed method -/
  ss : List (Option SingleStepMethod)
  /-- `self._ss_inst_ptr`: per-CPU IP captured at arming time -/
  ssInstPtr : List (Option Nat)
  /-- trace of `_feature_update` calls, oldest first -/
  featureTrace : List FeatureUpdateCall
deriving DecidableEq, Repr

/-- `SingleStepPluginBase.__init__` state for a `k`-CPU VM. -/
def ssInit (k : Nat) : SSState :=
  { requestIdCntr := 0, ss := List.replicate k none,
    ssInstPtr := List.replicate k none, featureTrace := [] }

/-- `SingleStepPluginBase.request_event`. `defaultMethod` is the
architecture-specific `self._default_method`; `instPtr` is the current
`self._vm.cpu(cpu_num).instruction_pointer`. Returns the request id and the
new state. -/
def ssRequestEvent (s : SSState) (defaultMethod : SingleStepMethod)
    (cpu_num : Nat) (methodArg : Option SingleStepMethod) (instPtr : Nat) :
    Except SSError (Nat × SSState) :=
  let method := methodArg.getD defaultMethod
  if (s.ss.getD cpu_num none).isSome ∧ s.ss.getD cpu_num none ≠ some method then
    .error .methodConflict
  else
    .ok (s.requestIdCntr,
      { requestIdCntr := s.requestIdCntr + 1,
        ss := s.ss.set cpu_num (some method),
        ssInstPtr := s.ssInstPtr.set cpu_num (some instPtr),
        featureTrace := s.featureTrace ++ [⟨true, method, cpu_num⟩] })

/-- `SingleStepPluginBase._cb_func_ss(event)`: invoked when a
`SystemEventSingleStep` is delivered. It calls
`_feature_update(False, self._ss[event.cpu_num], event.cpu_num)`; when no
method is armed, both architectures' `_feature_update` raise `ValueError`.
Note that `self._ss[event.cpu_num]` is never assigned here. -/
def ssCbFuncSs (s : SSState) (cpu_num : Nat) : Except SSError SSState :=
  match s.ss.getD cpu_num none with
  | none => .error .unexpectedMethod
  | some m =>
      .ok { s with featureTrace := s.featureTrace ++ [⟨false, m, cpu_num⟩] }

/-- `SingleStepPluginBase.last_ss_gva(cpu_num)`. -/
def lastSsGva (s : SSState) (cpu_num : Nat) : Option Nat :=
  s.ssInstPtr.getD cpu_num none

/-! ## LBR refcount (`tenjint/plugins/machine.py`, `VirtualMachineX86_64`) -/

/-- A call `api.tenjint_api_update_feature_lbr(cpu_num, enable, flags)`. -/
structure LbrCall where
  cpu_num : Option Nat
  enable : Bool
  flags : Nat
deriving DecidableEq, Repr

/-- `self._lbr_enabled` per-CPU counters plus the trace of
`tenjint_api_update_feature_lbr` calls. -/
structure LbrState where
  lbrEnabled : List Int
  lbrTrace : List LbrCall
deriving DecidableEq, Repr

/-- `VirtualMachineX86_64.__init__` LBR state for a `k`-CPU VM. -/
def lbrInit (k : Nat) : LbrState :=
  { lbrEnabled := List.replicate k 0, lbrTrace := [] }

/-- The `cpu_num is None` loop of `lbr_enable`: increment every counter and
flag whether any counter transitioned to 1. -/
def bumpAll : List Int → List Int × Bool
  | [] => ([], false)
  | c :: rest =>
      let r := bumpAll rest
      ((c + 1) :: r.1, (c + 1 == 1) || r.2)

/-- The `cpu_num is None` loop of `lbr_disable`: decrement every counter and
flag whether any counter transitioned to 0. -/
def dropAll : List Int → List Int × Bool
  | [] => ([], false)
  | c :: rest =>
      let r := dropAll rest
      ((c - 1) :: r.1, (c - 1 == 0) || r.2)

/-- `VirtualMachineX86_64.lbr_enable(cpu_num=None)`. -/
def lbrEnable (s : LbrState) (cpu_num : Option Nat) : LbrState :=
  match cpu_num with
  | none =>
      let r := bumpAll s.lbrEnabled
      { lbrEnabled := r.1,
        lbrTrace := if r.2 then s.lbrTrace ++ [⟨none, true, 0⟩] else s.lbrTrace }
  | some c =>
      let v := s.lbrEnabled.getD c 0 + 1
      { lbrEnabled := s.lbrEnabled.set c v,
        lbrTrace := if v == 1 then s.lbrTrace ++ [⟨some c, true, 0⟩] else s.lbrTrace }

/-- `VirtualMachineX86_64.lbr_disable(cpu_num=None)`. -/
def lbrDisable (s : LbrState) (cpu_num : Option Nat) : LbrState :=
  match cpu_num with
  | none =>
      let r := dropAll s.lbrEnabled
      { lbrEnabled := r.1,
        lbrTrace := if r.2 then s.lbrTrace ++ [⟨none, false, 0⟩] else s.lbrTrace }
  | some c =>
      let v := s.lbrEnabled.getD c 0 - 1
      { lbrEnabled := s.lbrEnabled.set c v,
        lbrTrace := if v == 0 then s.lbrTrace ++ [⟨some c, false, 0⟩] else s.lbrTrace }

/-! ## Breakpoint record (`tenjint/plugins/breakpoint.py`, class `Breakpoint`)

One `Breakpoint` record for a fixed gpa. The SLP page permissions requested
through `self._slp_service.update_permissions` are modelled as applied
directly to the page (the coordinator's merge logic is modelled separately
above); the hypervisor debug-trap feature toggled by `_set_bp`/`_unset_bp`
is tracked as `debugInstalled`. -/

/-- The `(r, w, x)` permissions of the breakpoint's page. -/
structure PagePerms where
  r : Bool
  w : Bool
  x : Bool
deriving DecidableEq, Repr

/-- State of one `Breakpoint` record together with the hypervisor state it
drives: `is_set`, which of its two SLP subscriptions is registered with the
event manager, the page permissions, and the debug-trap feature. -/
structure BpState where
  /-- `self.is_set` -/
  isSet : Bool
  /-- whether `self._slp_rw_cb` is registered (`request_event`ed) -/
  rwActive : Bool
  /-- whether `self._slp_x_cb` is registered -/
  xActive : Bool
  /-- permissions of the page holding the breakpoint -/
  pagePerms : PagePerms
  /-- whether `tenjint_api_update_feature_debug(enable=True, gpa)` is in
  effect for this record's gpa -/
  debugInstalled : Bool
deriving DecidableEq, Repr

/-- A fresh `Breakpoint` record right after `__init__` for a page whose
current permissions are `p`. -/
def bpInit (p : PagePerms) : BpState :=
  { isSet := false, rwActive := false, xActive := false,
    pagePerms := p, debugInstalled := false }

/-- `Breakpoint.set_bp()`: request X-only on the page, subscribe
`_slp_rw_cb`, install the hypervisor debug breakpoint (`_set_bp`). -/
def setBp (s : BpState) : BpState :=
  { s with pagePerms := ⟨false, false, true⟩, rwActive := true,
           debugInstalled := true, isSet := true }

/-- `Breakpoint._slp_rw_cb_func(event)`: `_unset_bp()`, flip the page to
`(r=True, w=True, x=False)`, cancel the RW subscription, request the X
subscription. -/
def rwCbFunc (s : BpState) : BpState :=
  { s with debugInstalled := false, isSet := false,
           pagePerms := ⟨true, true, false⟩,
           rwActive := false, xActive := true }

/-- `Breakpoint._slp_x_cb_func(event)`: cancel the X subscription, request
the RW subscription, flip the page back to X-only, `_set_bp()`. -/
def xCbFunc (s : BpState) : BpState :=
  { s with xActive := false, rwActive := true,
           pagePerms := ⟨false, false, true⟩,
           debugInstalled := true, isSet := true }

/-- `Breakpoint.unset_bp()`. -/
def unsetBp (s : BpState) : BpState :=
  if s.isSet then
    { s with debugInstalled := false, isSet := false, rwActive := false }
  else
    { s with xActive := false }

/-- The record is in protocol state `Armed` exactly when its RW subscription
is registered (the implicit state of the source: `Armed` has `_slp_rw_cb`
subscribed, `Hidden` has `_slp_x_cb` subscribed). -/
def bpArmed (s : BpState) : Bool := s.rwActive

/-- States of a `Breakpoint` record reachable through its public protocol:
construction, one `set_bp`, deliveries of the SLP callbacks (only possible
while the corresponding subscription is registered), and `unset_bp`. -/
inductive BpReachable : BpState → Prop
  | init (p : PagePerms) : BpReachable (bpInit p)
  | set (p : PagePerms) : BpReachable (setBp (bpInit p))
  | rw {s : BpState} : BpReachable s → s.rwActive = true → BpReachable (rwCbFunc s)
  | x {s : BpState} : BpReachable s → s.xActive = true → BpReachable (xCbFunc s)
  | unset {s : BpState} : BpReachable s → BpReachable (unsetBp s)

/-! ## Event manager (`tenjint/event.py`)

Events are abstracted by a type `Ev` with a name function `kindOf`
(Python's `type(event).__name__`); subscription parameter bags by a type
`Params`. A registered event class is represented by what delivery uses of
it: its classmethod `filter`. `EventManager._event_plugins` is then an
insertion-ordered map from class name to filter. -/

section EventManagerModel

variable {Ev Params : Type}

/-- Errors raised by `EventManager`. -/
inductive EventManagerError where
  /-- `EventPluginExists("... already provided by ...")` -/
  | eventPluginExists
deriving DecidableEq, Repr

/-- An `event.EventCallback`: the subscription data used by dispatch. The
callback function itself is identified with the subscription record; a
"delivered" subscription appearing in the dispatch trace means its
`_callback_func` was invoked. -/
structure EventCb (Params : Type) where
  /-- `self.event_name` -/
  eventName : Option String
  /-- `self.event_params` -/
  eventParams : Params
  /-- distinguishes distinct subscription objects -/
  cbId : Nat
deriving DecidableEq, Repr

/-- `EventCallback.event_key`. -/
def eventKey (cb : EventCb Params) : String :=
  match cb.eventName with
  | none => "*"
  | some n => n

/-- `EventCallback.event_cls`: `None` for a wildcard subscription, and
`None` when `get_event_cls` raises `KeyError` (kind not registered). -/
def eventClsOf (registry : List (String × (Params → Ev → Bool)))
    (cb : EventCb Params) : Option (Params → Ev → Bool) :=
  match cb.eventName with
  | none => none
  | some n => dget registry n

/-- The condition of `EventCallback.deliver`: the callback function is
invoked iff `event_cls` is `None` or its `filter` accepts the event. -/
def deliverInvokes (registry : List (String × (Params → Ev → Bool)))
    (cb : EventCb Params) (ev : Ev) : Bool :=
  match eventClsOf registry cb with
  | none => true
  | some fl => fl cb.eventParams ev

/-- A loop `for callback in bucket: callback.deliver(event)`, returning the
subscriptions whose callback function was invoked, in order. -/
def deliverLoop (registry : List (String × (Params → Ev → Bool))) (ev : Ev) :
    List (EventCb Params) → List (EventCb Params)
  | [] => []
  | cb :: rest =>
      if deliverInvokes registry cb ev then
        cb :: deliverLoop registry ev rest
      else
        deliverLoop registry ev rest

/-- `EventManager._dispatch_event(event)`: the `"*"` bucket first, then the
bucket keyed by the event's exact class name (if present). Returns the
invoked subscriptions, in invocation order. -/
def dispatchEvent (registry : List (String × (Params → Ev → Bool)))
    (callbacks : List (String × List (EventCb Params)))
    (kindOf : Ev → String) (ev : Ev) : List (EventCb Params) :=
  deliverLoop registry ev ((dget callbacks "*").getD []) ++
    match dget callbacks (kindOf ev) with
    | some bucket => deliverLoop registry ev bucket
    | none => []

/-- The default `Event.filter` classmethod: accept iff the event's type is
exactly the registered class. -/
def defaultFilter (kindOf : Ev → String) (name : String) :
    Params → Ev → Bool :=
  fun _ ev => kindOf ev == name

/-- `EventManager.__init__`: `self._event_plugins` starts out already
mapping the three VM lifecycle class names to their classes. -/
def initEventPlugins (kindOf : Ev → String) :
    List (String × (Params → Ev → Bool)) :=
  [("SystemEventVmShutdown", defaultFilter kindOf "SystemEventVmShutdown"),
   ("SystemEventVmReady", defaultFilter kindOf "SystemEventVmReady"),
   ("SystemEventVmStop", defaultFilter kindOf "SystemEventVmStop")]

/-- The loop of `EventManager.register(plugin)` over `plugin.produces`,
given as the produced classes' names and filters: raise `EventPluginExists`
if a name is already present, else insert it. -/
def registerPlugin (registry : List (String × (Params → Ev → Bool))) :
    List (String × (Params → Ev → Bool)) →
    Except EventManagerError (List (String × (Params → Ev → Bool)))
  | [] => .ok registry
  | (name, cls) :: rest =>
      if (dget registry name).isSome then
        .error .eventPluginExists
      else
        registerPlugin (dset registry name cls) rest

end EventManagerModel

/-! ## Run loop (`tenjint/event.py`, `put_event` / `run_loop`)

The inner drain loop of `run_loop` is modelled operationally: dispatching an
event `ev` may enqueue further events via `put_event` from inside subscriber
callbacks — abstracted as `emits ev`, appended to the back of the queue —
and `type(event) == api.SystemEventVmShutdown` is abstracted as
`isShutdown ev`. Fuel makes the recursion well-founded; `none` means the
drain did not complete within the fuel. -/

section RunLoopModel

variable {Ev : Type}

/-- `EventManager.put_event(event)`: append to the queue; nothing else. -/
def putEvent (queue : List Ev) (ev : Ev) : List Ev :=
  queue ++ [ev]

/-- The `while self._event_queue:` loop of `run_loop`: pop the front,
dispatch it (its `put_event`s land at the back), return if it is
`SystemEventVmShutdown`. Returns the dispatch trace and whether the loop
returned because of a shutdown event. -/
def runQueue (emits : Ev → List Ev) (isShutdown : Ev → Bool) :
    Nat → List Ev → Option (List Ev × Bool)
  | _, [] => some ([], false)
  | 0, _ :: _ => none
  | fuel + 1, ev :: rest =>
      if isShutdown ev then
        some ([ev], true)
      else
        match runQueue emits isShutdown fuel (rest ++ emits ev) with
        | some (t, b) => some (ev :: t, b)
        | none => none

end RunLoopModel

/-! ## Theorems -/

/-- Helper: the flush loop of `_cont_hook` issues exactly one `slp_update`
per uncommitted entry, in map order. -/
theorem flushCalls_eq_filter_map (l : List (Nat × PermEntry)) :
    flushCalls l = (l.filter (fun p => !p.2.committed)).map
      (fun p => ⟨p.1 <<< PAGE_SHIFT, p.2.r, p.2.w, p.2.x⟩) := by
  induction l with
  | nil => rfl
  | cons hd tl ih =>
      obtain ⟨gfn, p⟩ := hd
      by_cases hc : p.committed <;> simp [flushCalls, hc, ih]

/-- Claim C3: W-xor-X enforcement in `update_permissions`. When the per-page
map already holds a request for the gpa's gfn and the bitwise-OR merge has
both `w` and `x`, the call raises `SLPPermUpdateViolation`; the raise occurs
before any mutation or hypervisor call, which the embedding reflects by the
`.error` result carrying no new state (the caller's `permRequests` and
`updateTrace` are untouched). When the merge does not have `w` and `x`
together — with or without an existing entry — no error is raised. -/
theorem slp_wx_enforcement (s : SLPState) (gpa : Nat) (r w x : Bool) :
    (∀ prev, dget s.permRequests (gpa >>> PAGE_SHIFT) = some prev →
       (slpMutexViolation prev ⟨r, w, x, true⟩ = true →
          updatePermissions s gpa r w x = .error .permUpdateViolation) ∧
       (slpMutexViolation prev ⟨r, w, x, true⟩ = false →
          ∃ s', updatePermissions s gpa r w x = .ok s')) ∧
    (dget s.permRequests (gpa >>> PAGE_SHIFT) = none →
       ∃ s', updatePermissions s gpa r w x = .ok s') := by
  constructor
  · intro prev hprev
    constructor <;> intro hviol <;> simp [updatePermissions, hprev, hviol]
  · intro hnone
    simp [updatePermissions, hnone]

/-- Witness for `slp_wx_enforcement` at a concrete state: gfn 5 already
requests `(r=true, w=true, x=false)` committed, and `update_permissions`
with `x=true` merges to W+X. -/
theorem slp_wx_enforcement_witness :
    (dget [(5, (⟨true, true, false, true⟩ : PermEntry))] ((5 <<< 12 : Nat) >>> PAGE_SHIFT) =
       some ⟨true, true, false, true⟩) ∧
    (slpMutexViolation ⟨true, true, false, true⟩ ⟨false, false, true, true⟩ = true →
       updatePermissions ⟨[(5, ⟨true, true, false, true⟩)], [], [none], [false], []⟩
         (5 <<< 12) false false true = .error .permUpdateViolation) :=
  ⟨by decide,
   ((slp_wx_enforcement ⟨[(5, ⟨true, true, false, true⟩)], [], [none], [false], []⟩
       (5 <<< 12) false false true).1 ⟨true, true, false, true⟩ (by decide)).1⟩

/-- Claim C4: commit-or-defer in `update_permissions` and the continue-hook
flush. A gfn with no entry gets exactly one immediate `slp_update` and a
committed entry; a gfn with an entry gets no hypervisor call and an
OR-merged uncommitted entry; `_cont_hook` (after `_merge_event_perms`)
issues exactly one `slp_update` per uncommitted entry of the map and then
clears the event buffer and the request map. -/
theorem slp_commit_or_defer (s : SLPState) (gpa : Nat) (r w x : Bool) :
    (dget s.permRequests (gpa >>> PAGE_SHIFT) = none →
       updatePermissions s gpa r w x = .ok
         { s with
             updateTrace := s.updateTrace ++ [⟨gpa, r, w, x⟩],
             permRequests := dset s.permRequests (gpa >>> PAGE_SHIFT)
               ⟨r, w, x, true⟩ }) ∧
    (∀ prev, dget s.permRequests (gpa >>> PAGE_SHIFT) = some prev →
       slpMutexViolation prev ⟨r, w, x, true⟩ = false →
       updatePermissions s gpa r w x = .ok
         { s with
             permRequests := dset s.permRequests (gpa >>> PAGE_SHIFT)
               ⟨r || prev.r, w || prev.w, x || prev.x, false⟩ }) ∧
    (∀ m, mergeEventPerms s = .ok m →
       contHook s = .ok
         { m with
             updateTrace := m.updateTrace ++ flushCalls m.permRequests,
             slpEvents := [], permRequests := [] } ∧
       flushCalls m.permRequests =
         (m.permRequests.filter (fun p => !p.2.committed)).map
           (fun p => ⟨p.1 <<< PAGE_SHIFT, p.2.r, p.2.w, p.2.x⟩)) := by
  refine ⟨?_, ?_, ?_⟩
  · intro hnone
    simp [updatePermissions, hnone]
  · intro prev hprev hviol
    simp [updatePermissions, hprev, hviol]
  · intro m hm
    refine ⟨?_, flushCalls_eq_filter_map m.permRequests⟩
    unfold contHook
    rw [hm]
    rfl

/-- Witness for `slp_commit_or_defer`: a fresh state has no entry for
gfn 5, so the update is pushed immediately and marked committed. -/
theorem slp_commit_or_defer_witness :
    (dget (slpInit 1).permRequests ((5 <<< 12 : Nat) >>> PAGE_SHIFT) = none) ∧
    updatePermissions (slpInit 1) (5 <<< 12) true true false = .ok
      { slpInit 1 with
          updateTrace := [⟨5 <<< 12, true, true, false⟩],
          permRequests := [(5, ⟨true, true, false, true⟩)] } :=
  ⟨by decide,
   by
     have h := (slp_commit_or_defer (slpInit 1) (5 <<< 12) true true false).1 (by decide)
     simpa [slpInit, dset] using h⟩

/-- Claim C2 (code bug): evaluation of the RWX resolution protocol at the
failing input. At a stop where gfn 5 already received
`update_permissions(gpa, r=True, w=True)` (committed entry), a buffered
`SlpViolation` with `rwx=True` on cpu 1 makes `_merge_event_perms` store the
page's whole 4-tuple `(r, w, x, committed)` entry in the per-CPU slot; the
single-step callback `_ss_cb_func` then unpacks the slot as
`(gfn, (r, w, x))` and raises `ValueError` instead of re-applying the
pre-fault permissions. -/
theorem slp_rwx_restore_crash_eval :
    (do
      let s1 ← updatePermissions (slpInit 2) (5 <<< PAGE_SHIFT) true true false
      let s2 := slpCbFunc s1 ⟨1, 5 <<< PAGE_SHIFT, false, false, false, true⟩
      let s3 ← contHook s2
      ssCbFunc s3 1) = .error .unpackValueError := by decide

/-- Claim C1 (counterexample): single-step is not single-shot with respect
to the armed method. On a 1-CPU x86 VM, request single-step with MTF, let
the `SingleStep` event fire (so `_cb_func_ss` runs), then request
single-step with DEBUG: the second request raises the MethodConflict
`ValueError`, because `_cb_func_ss` never clears `self._ss[cpu]`. -/
theorem ss_single_shot_counterexample :
    (do
      let r1 ← ssRequestEvent (ssInit 1) .MTF 0 (some .MTF) 4096
      let s2 ← ssCbFuncSs r1.2 0
      let r2 ← ssRequestEvent s2 .MTF 0 (some .DEBUG) 4096
      pure r2.1) = .error .methodConflict := by decide

/-- Claim C1 (amended): after a `SingleStep` event for a CPU is delivered to
`_cb_func_ss`, the coordinator disables the hypervisor feature for the armed
method but leaves the per-CPU armed method set, so a subsequent
`request_event` for the same CPU with a different method still fails
MethodConflict. -/
theorem ss_single_shot_amended (s : SSState) (cpu : Nat)
    (m m' d : SingleStepMethod) (ip : Nat)
    (h : s.ss.getD cpu none = some m) (hne : m' ≠ m) :
    ssCbFuncSs s cpu =
      .ok { s with featureTrace := s.featureTrace ++ [⟨false, m, cpu⟩] } ∧
    ∀ s2, ssCbFuncSs s cpu = .ok s2 →
      s2.ss = s.ss ∧
      ssRequestEvent s2 d cpu (some m') ip = .error .methodConflict := by
  have hcb : ssCbFuncSs s cpu =
      .ok { s with featureTrace := s.featureTrace ++ [⟨false, m, cpu⟩] } := by
    unfold ssCbFuncSs
    rw [h]
  refine ⟨hcb, ?_⟩
  intro s2 h2
  rw [hcb] at h2
  injection h2 with h2
  subst h2
  refine ⟨rfl, ?_⟩
  unfold ssRequestEvent
  have hss : ({ s with featureTrace := s.featureTrace ++ [⟨false, m, cpu⟩] } :
      SSState).ss = s.ss := rfl
  rw [hss, h]
  have hmm : ¬(some m = some ((some m').getD d)) := by
    intro hc
    exact hne (Option.some.inj hc).symm
  simp only [Option.getD] at hmm
  simp [hmm, Ne.symm hne]

/-- Witness for `ss_single_shot_amended`: cpu 0 armed with MTF, a DEBUG
request after the step fails. -/
theorem ss_single_shot_amended_witness :
    ((⟨1, [some .MTF], [some 4096], [⟨true, .MTF, 0⟩]⟩ : SSState).ss.getD 0 none =
       some .MTF) ∧
    (SingleStepMethod.DEBUG ≠ SingleStepMethod.MTF) ∧
    (ssCbFuncSs ⟨1, [some .MTF], [some 4096], [⟨true, .MTF, 0⟩]⟩ 0 =
      .ok { (⟨1, [some .MTF], [some 4096], [⟨true, .MTF, 0⟩]⟩ : SSState) with
              featureTrace := [⟨true, .MTF, 0⟩] ++ [⟨false, .MTF, 0⟩] } ∧
     ∀ s2, ssCbFuncSs ⟨1, [some .MTF], [some 4096], [⟨true, .MTF, 0⟩]⟩ 0 = .ok s2 →
       s2.ss = [some .MTF] ∧
       ssRequestEvent s2 .MTF 0 (some .DEBUG) 4096 = .error .methodConflict) :=
  ⟨by decide, by decide,
   ss_single_shot_amended ⟨1, [some .MTF], [some 4096], [⟨true, .MTF, 0⟩]⟩ 0
     .MTF .DEBUG .MTF 4096 (by decide) (by decide)⟩

/-- Claim C5: in every reachable state of a breakpoint record, the
hypervisor debug trap is installed at the record's gpa — and `is_set` agrees
with it — exactly when the record is Armed (its RW subscription is
registered); and the two SLP callbacks perform exactly the transitions the
claim describes: `_slp_rw_cb_func` uninstalls the debug trap, flips the page
to `(r=True, w=True, x=False)`, cancels the RW subscription and installs the
X subscription, while `_slp_x_cb_func` does the inverse, ending with the
page X-only and the debug trap reinstalled. -/
theorem bp_armed_iff_installed (s : BpState) (h : BpReachable s) :
    (s.debugInstalled = bpArmed s ∧ s.isSet = s.debugInstalled) ∧
    ((rwCbFunc s).debugInstalled = false ∧
     (rwCbFunc s).pagePerms = ⟨true, true, false⟩ ∧
     (rwCbFunc s).rwActive = false ∧ (rwCbFunc s).xActive = true) ∧
    ((xCbFunc s).debugInstalled = true ∧
     (xCbFunc s).pagePerms = ⟨false, false, true⟩ ∧
     (xCbFunc s).xActive = false ∧ (xCbFunc s).rwActive = true) := by
  refine ⟨?_, ⟨rfl, rfl, rfl, rfl⟩, ⟨rfl, rfl, rfl, rfl⟩⟩
  induction h with
  | init p => exact ⟨rfl, rfl⟩
  | set p => exact ⟨rfl, rfl⟩
  | rw hs hact ih => exact ⟨rfl, rfl⟩
  | x hs hact ih => exact ⟨rfl, rfl⟩
  | @unset s1 hs ih =>
      unfold unsetBp
      by_cases hset : s1.isSet
      · simp [hset, bpArmed]
      · rw [if_neg hset]
        exact ih

/-- Witness for `bp_armed_iff_installed` at the state reached by `set_bp`
on a fresh record for an RW page. -/
theorem bp_armed_iff_installed_witness :
    (setBp (bpInit ⟨true, true, false⟩)).debugInstalled =
      bpArmed (setBp (bpInit ⟨true, true, false⟩)) ∧
    (setBp (bpInit ⟨true, true, false⟩)).isSet =
      (setBp (bpInit ⟨true, true, false⟩)).debugInstalled :=
  (bp_armed_iff_installed _ (BpReachable.set _)).1

/-- Helper: the all-CPU loop of `lbr_enable` on uniform counters. -/
theorem bumpAll_replicate (k : Nat) (j : Int) :
    bumpAll (List.replicate (k + 1) j) =
      (List.replicate (k + 1) (j + 1), j + 1 == 1) := by
  induction k with
  | zero => simp [bumpAll]
  | succ n ih =>
      have step : bumpAll (List.replicate (n + 1 + 1) j) =
          ((j + 1) :: (bumpAll (List.replicate (n + 1) j)).1,
           ((j + 1 == 1) || (bumpAll (List.replicate (n + 1) j)).2)) := rfl
      rw [step, ih]
      simp [List.replicate_succ]

/-- Helper: the all-CPU loop of `lbr_disable` on uniform counters. -/
theorem dropAll_replicate (k : Nat) (j : Int) :
    dropAll (List.replicate (k + 1) j) =
      (List.replicate (k + 1) (j - 1), j - 1 == 0) := by
  induction k with
  | zero => simp [dropAll]
  | succ n ih =>
      have step : dropAll (List.replicate (n + 1 + 1) j) =
          ((j - 1) :: (dropAll (List.replicate (n + 1) j)).1,
           ((j - 1 == 0) || (dropAll (List.replicate (n + 1) j)).2)) := rfl
      rw [step, ih]
      simp [List.replicate_succ]

/-- Helper: `lbr_enable()` (no cpu argument) on uniform counters. -/
theorem lbrEnable_none_replicate (k : Nat) (j : Int) (t : List LbrCall) :
    lbrEnable ⟨List.replicate (k + 1) j, t⟩ none =
      ⟨List.replicate (k + 1) (j + 1),
       if j + 1 == 1 then t ++ [⟨none, true, 0⟩] else t⟩ := by
  simp only [lbrEnable, bumpAll_replicate]

/-- Helper: `lbr_disable()` (no cpu argument) on uniform counters. -/
theorem lbrDisable_none_replicate (k : Nat) (j : Int) (t : List LbrCall) :
    lbrDisable ⟨List.replicate (k + 1) j, t⟩ none =
      ⟨List.replicate (k + 1) (j - 1),
       if j - 1 == 0 then t ++ [⟨none, false, 0⟩] else t⟩ := by
  simp only [lbrDisable, dropAll_replicate]

/-- Helper: `n ≥ 1` calls to `lbr_enable()` from the fresh state leave every
counter at `n` and issue exactly one hypervisor enable. -/
theorem lbr_enable_iter (k n : Nat) (hn : 1 ≤ n) :
    (fun s => lbrEnable s none)^[n] (lbrInit (k + 1)) =
      { lbrEnabled := List.replicate (k + 1) (n : Int),
        lbrTrace := [⟨none, true, 0⟩] } := by
  induction n with
  | zero => omega
  | succ n ih =>
      rcases Nat.eq_zero_or_pos n with h0 | hpos
      · subst h0
        show lbrEnable (lbrInit (k + 1)) none = _
        rw [show lbrInit (k + 1) =
            (⟨List.replicate (k + 1) (0 : Int), []⟩ : LbrState) from rfl]
        rw [lbrEnable_none_replicate]
        norm_num
      · rw [Function.iterate_succ_apply', ih hpos, lbrEnable_none_replicate]
        have hne : ((n : Int) + 1 == 1) = false := by
          simp only [beq_eq_false_iff_ne, ne_eq]
          omega
        rw [hne]
        simp only [if_false, Bool.false_eq_true]
        congr 1

/-- Helper: `m < n` calls to `lbr_disable()` from uniform counters at `n`
issue no hypervisor call. -/
theorem lbr_disable_iter (k n m : Nat) (t : List LbrCall) (hm : m < n) :
    (fun s => lbrDisable s none)^[m]
        ⟨List.replicate (k + 1) (n : Int), t⟩ =
      ⟨List.replicate (k + 1) ((n : Int) - m), t⟩ := by
  induction m with
  | zero => simp
  | succ mm ih =>
      rw [Function.iterate_succ_apply', ih (by omega), lbrDisable_none_replicate]
      have hne : ((n : Int) - mm - 1 == 0) = false := by
        simp only [beq_eq_false_iff_ne, ne_eq]
        omega
      rw [hne]
      simp only [if_false, Bool.false_eq_true]
      congr 1
      push_cast
      ring_nf

/-- Claim C8: LBR refcount balance. For `n ≥ 1`, a sequence of `n` calls to
`lbr_enable()` followed by `n` calls to `lbr_disable()` (no cpu argument) on
a VM with at least one CPU issues exactly one hypervisor LBR enable (on the
first enable) and exactly one disable (on the last disable), leaving the
feature disabled and every per-CPU counter at 0. -/
theorem lbr_refcount_balance (n k : Nat) (hn : 1 ≤ n) (hk : 1 ≤ k) :
    (fun s => lbrDisable s none)^[n]
        ((fun s => lbrEnable s none)^[n] (lbrInit k)) =
      { lbrEnabled := List.replicate k 0,
        lbrTrace := [⟨none, true, 0⟩, ⟨none, false, 0⟩] } := by
  obtain ⟨k', rfl⟩ : ∃ k', k = k' + 1 := ⟨k - 1, by omega⟩
  rw [lbr_enable_iter k' n hn]
  obtain ⟨n', rfl⟩ : ∃ n', n = n' + 1 := ⟨n - 1, by omega⟩
  rw [Function.iterate_succ_apply']
  rcases Nat.eq_zero_or_pos n' with h0 | hpos
  · subst h0
    simp only [Function.iterate_zero, id_eq]
    rw [show ((0 + 1 : Nat) : Int) = 1 by norm_num, lbrDisable_none_replicate]
    norm_num
  · rw [lbr_disable_iter k' (n' + 1) n' _ (by omega), lbrDisable_none_replicate]
    have h1 : ((n' + 1 : Nat) : Int) - n' - 1 = 0 := by
      push_cast
      ring
    rw [show ((n' + 1 : Nat) : Int) - n' = 0 + 1 by push_cast; ring]
    norm_num

/-- Witness for `lbr_refcount_balance`: three enables then three disables on
a 2-CPU VM. -/
theorem lbr_refcount_balance_witness :
    (fun s => lbrDisable s none)^[3]
        ((fun s => lbrEnable s none)^[3] (lbrInit 2)) =
      { lbrEnabled := List.replicate 2 0,
        lbrTrace := [⟨none, true, 0⟩, ⟨none, false, 0⟩] } :=
  lbr_refcount_balance 3 2 (by decide) (by decide)

/-- Helper: the deliver loop invokes exactly the callbacks whose deliver
condition holds, preserving order. -/
theorem deliverLoop_eq_filter {Ev Params : Type}
    (registry : List (String × (Params → Ev → Bool))) (ev : Ev)
    (l : List (EventCb Params)) :
    deliverLoop registry ev l =
      l.filter (fun cb => deliverInvokes registry cb ev) := by
  induction l with
  | nil => rfl
  | cons cb rest ih =>
      by_cases hd : deliverInvokes registry cb ev <;>
        simp [deliverLoop, List.filter_cons, hd, ih]

/-- Claim C6: dispatch order and filter gating. `_dispatch_event` invokes
first the wildcard bucket, then the bucket of the event's exact kind name,
each in insertion order, keeping exactly the subscriptions whose deliver
condition holds; and for a subscription whose `event_name` resolves to a
registered class, the deliver condition is precisely that class's filter
applied to the subscription's parameter bag, so a rejecting filter means the
callback is not invoked. -/
theorem dispatch_order_and_filter {Ev Params : Type}
    (registry : List (String × (Params → Ev → Bool)))
    (callbacks : List (String × List (EventCb Params)))
    (kindOf : Ev → String) (ev : Ev) :
    dispatchEvent registry callbacks kindOf ev =
      ((dget callbacks "*").getD []).filter
        (fun cb => deliverInvokes registry cb ev) ++
      ((dget callbacks (kindOf ev)).getD []).filter
        (fun cb => deliverInvokes registry cb ev) ∧
    (∀ cb : EventCb Params,
       cb ∈ dispatchEvent registry callbacks kindOf ev ↔
         ((cb ∈ (dget callbacks "*").getD [] ∨
           cb ∈ (dget callbacks (kindOf ev)).getD []) ∧
          deliverInvokes registry cb ev = true)) ∧
    (∀ (cb : EventCb Params) (n : String) (fl : Params → Ev → Bool),
       cb.eventName = some n → dget registry n = some fl →
       deliverInvokes registry cb ev = fl cb.eventParams ev) := by
  have hdisp : dispatchEvent registry callbacks kindOf ev =
      ((dget callbacks "*").getD []).filter
        (fun cb => deliverInvokes registry cb ev) ++
      ((dget callbacks (kindOf ev)).getD []).filter
        (fun cb => deliverInvokes registry cb ev) := by
    unfold dispatchEvent
    cases hk : dget callbacks (kindOf ev) with
    | none => simp [deliverLoop_eq_filter, hk]
    | some bucket => simp [deliverLoop_eq_filter, hk]
  refine ⟨hdisp, ?_, ?_⟩
  · intro cb
    rw [hdisp]
    simp only [List.mem_append, List.mem_filter]
    tauto
  · intro cb n fl h1 h2
    simp [deliverInvokes, eventClsOf, h1, h2]

/-- Witness for `dispatch_order_and_filter`: one wildcard subscriber, one
accepting and one rejecting kind subscriber; the rejecting one (parameter 4
against event 3) is not invoked. -/
theorem dispatch_order_and_filter_witness :
    dispatchEvent [("A", fun (p : Nat) (e : Nat) => p == e)]
        [("*", [⟨none, 0, 0⟩]),
         ("A", [⟨some "A", 3, 1⟩, ⟨some "A", 4, 2⟩])]
        (fun _ => "A") (3 : Nat) =
      [⟨none, 0, 0⟩, ⟨some "A", 3, 1⟩] := by
  rw [(dispatch_order_and_filter [("A", fun (p : Nat) (e : Nat) => p == e)]
        [("*", [⟨none, 0, 0⟩]),
         ("A", [⟨some "A", 3, 1⟩, ⟨some "A", 4, 2⟩])]
        (fun _ => "A") (3 : Nat)).1]
  rfl

/-- Helper: key presence in the producer map is preserved by inserting
another binding. -/
theorem dget_dset_isSome {κ β : Type} [DecidableEq κ]
    (m : List (κ × β)) (k k' : κ) (v : β) :
    (dget m k).isSome → (dget (dset m k' v) k).isSome := by
  induction m with
  | nil => simp [dget]
  | cons hd tl ih =>
      obtain ⟨a, b⟩ := hd
      intro hsome
      by_cases h2 : a = k'
      · subst h2
        simp only [dset, if_pos rfl]
        by_cases h1 : a = k
        · simp [dget, h1]
        · simp only [dget, if_neg h1] at hsome ⊢
          exact hsome
      · simp only [dset, if_neg h2]
        by_cases h1 : a = k
        · simp [dget, h1]
        · simp only [dget, if_neg h1] at hsome ⊢
          exact ih hsome

/-- Helper: `register` raises `EventPluginExists` whenever some produced
kind name is already bound in the producer map. -/
theorem registerPlugin_error_of_present {Ev Params : Type}
    (produces : List (String × (Params → Ev → Bool))) :
    ∀ (registry : List (String × (Params → Ev → Bool)))
      (n : String) (fl : Params → Ev → Bool),
      (n, fl) ∈ produces → (dget registry n).isSome →
      @registerPlugin Ev Params registry produces =
        .error .eventPluginExists := by
  induction produces with
  | nil =>
      intro registry n fl hmem hsome
      simp at hmem
  | cons hd rest ih =>
      obtain ⟨m, c⟩ := hd
      intro registry n fl hmem hsome
      by_cases hp : (dget registry m).isSome
      · simp [registerPlugin, hp]
      · simp only [registerPlugin, hp, if_false, Bool.false_eq_true]
        rcases List.mem_cons.mp hmem with heq | hmem2
        · obtain ⟨hn, hc⟩ := Prod.mk.injEq .. ▸ heq
          subst hn
          exact absurd hsome hp
        · exact ih (dset registry m c) n fl hmem2
            (dget_dset_isSome registry n m c hsome)

/-- Claim C9: a freshly constructed event manager already maps the three VM
lifecycle kind names to entries of `_event_plugins`, so registering any
plugin whose `produces` list contains one of those kinds raises
`EventPluginExists`, even though no plugin ever registered as their
producer. -/
theorem lifecycle_producer_collision {Ev Params : Type} (kindOf : Ev → String)
    (produces : List (String × (Params → Ev → Bool))) (n : String)
    (fl : Params → Ev → Bool) (hmem : (n, fl) ∈ produces)
    (hn : n = "SystemEventVmShutdown" ∨ n = "SystemEventVmReady" ∨
          n = "SystemEventVmStop") :
    registerPlugin (@initEventPlugins Ev Params kindOf)
        produces = .error .eventPluginExists := by
  apply registerPlugin_error_of_present produces _ n fl hmem
  rcases hn with h | h | h <;> subst h <;> rfl

/-- Witness for `lifecycle_producer_collision`: a plugin producing
`SystemEventVmStop` (as `machine.py`-style plugins would if they listed it)
fails to register against the fresh manager. -/
theorem lifecycle_producer_collision_witness :
    registerPlugin (@initEventPlugins Nat Nat (fun _ => "E"))
      [("SystemEventBreakpoint", fun _ _ => true),
       ("SystemEventVmStop", fun _ _ => true)] =
    .error .eventPluginExists :=
  lifecycle_producer_collision (fun _ => "E")
    [("SystemEventBreakpoint", fun _ _ => true),
     ("SystemEventVmStop", fun _ _ => true)]
    "SystemEventVmStop" (fun _ _ => true)
    (List.Mem.tail _ (List.Mem.head _))
    (Or.inr (Or.inr rfl))

/-- Claim C10: a subscription naming an unregistered kind bypasses the
parameter filter. If `event_name` is set but not bound in
`_event_plugins`, then `event_cls` is `None`, `deliver` invokes the
callback on every event, and in particular the subscription is invoked for
every event dispatched to its kind-name bucket; once a class is registered
under the name, the deliver condition becomes that class's filter. -/
theorem unknown_kind_bypasses_filter {Ev Params : Type}
    (registry : List (String × (Params → Ev → Bool)))
    (cb : EventCb Params) (n : String) (h1 : cb.eventName = some n) :
    (dget registry n = none →
       @eventClsOf Ev Params registry cb = none ∧
       (∀ ev : Ev, deliverInvokes registry cb ev = true) ∧
       (∀ (callbacks : List (String × List (EventCb Params)))
          (kindOf : Ev → String) (ev : Ev),
          cb ∈ (dget callbacks (kindOf ev)).getD [] →
          cb ∈ dispatchEvent registry callbacks kindOf ev)) ∧
    (∀ fl : Params → Ev → Bool, dget registry n = some fl →
       ∀ ev : Ev, deliverInvokes registry cb ev = fl cb.eventParams ev) := by
  constructor
  · intro hnone
    have hcls : @eventClsOf Ev Params registry cb = none := by
      simp [eventClsOf, h1, hnone]
    have hinv : ∀ ev : Ev, deliverInvokes registry cb ev = true := by
      intro ev
      simp [deliverInvokes, hcls]
    refine ⟨hcls, hinv, ?_⟩
    intro callbacks kindOf ev hmem
    unfold dispatchEvent
    cases hk : dget callbacks (kindOf ev) with
    | none =>
        rw [hk] at hmem
        simp at hmem
    | some bucket =>
        rw [hk] at hmem
        simp only [Option.getD] at hmem
        apply List.mem_append_right
        show cb ∈ deliverLoop registry ev bucket
        rw [deliverLoop_eq_filter]
        exact List.mem_filter.mpr ⟨hmem, hinv ev⟩
  · intro fl hfl ev
    simp [deliverInvokes, eventClsOf, h1, hfl]

/-- Witness for `unknown_kind_bypasses_filter`: a subscription on the
unregistered kind name is invoked for an event dispatched to its bucket. -/
theorem unknown_kind_bypasses_filter_witness :
    dget [("B", fun (_ : Nat) (_ : Nat) => false)] "A" = none ∧
    (⟨some "A", 7, 0⟩ : EventCb Nat) ∈
      dispatchEvent [("B", fun (_ : Nat) (_ : Nat) => false)]
        [("A", [⟨some "A", 7, 0⟩])] (fun _ => "A") (5 : Nat) :=
  ⟨rfl,
   ((unknown_kind_bypasses_filter
        [("B", fun (_ : Nat) (_ : Nat) => false)]
        (⟨some "A", 7, 0⟩ : EventCb Nat) "A" rfl).1 rfl).2.2
      [("A", [⟨some "A", 7, 0⟩])] (fun _ => "A") 5 (List.Mem.head _)⟩

/-- Claim C7 (counterexample): with `VmShutdown`-like event `0` and ordinary
event `1` enqueued in that order, the drain loop dispatches `0`, returns
because it is a shutdown event, and never dispatches `1` — so "dispatches
both" fails as stated. -/
theorem fifo_dispatch_counterexample :
    runQueue (fun (_ : Nat) => []) (fun e => e == 0) 5 [0, 1] =
      some ([0], true) ∧
    ((1 : Nat) ∈ ([0, 1] : List Nat)) ∧ ¬((1 : Nat) ∈ ([0] : List Nat)) := by
  decide

/-- Claim C7 (amended): `put_event` only appends to the back of the queue
and invokes no callback; dispatching a `VmShutdown` event returns from the
run loop immediately, leaving the events behind it undispatched; and when
the drain completes without shutdown, the queue (including events appended
by callbacks during dispatch) is an order-preserving prefix of the dispatch
trace, so events are dispatched in FIFO order and all before the next
hypervisor poll. -/
theorem fifo_dispatch_amended {Ev : Type} (emits : Ev → List Ev)
    (isShutdown : Ev → Bool) :
    (∀ (q : List Ev) (ev : Ev), putEvent q ev = q ++ [ev]) ∧
    (∀ (fuel : Nat) (ev : Ev) (rest : List Ev), isShutdown ev = true →
       runQueue emits isShutdown (fuel + 1) (ev :: rest) = some ([ev], true)) ∧
    (∀ (fuel : Nat) (q t : List Ev),
       runQueue emits isShutdown fuel q = some (t, false) →
       ∃ t', t = q ++ t') := by
  refine ⟨fun q ev => rfl, ?_, ?_⟩
  · intro fuel ev rest hsd
    simp [runQueue, hsd]
  · intro fuel
    induction fuel with
    | zero =>
        intro q t h
        cases q with
        | nil =>
            refine ⟨[], ?_⟩
            have ht : ([] : List Ev) = t := by
              have := h
              simp [runQueue] at this
              exact this.symm
            simp [← ht]
        | cons a as =>
            simp [runQueue] at h
    | succ fuel ih =>
        intro q t h
        cases q with
        | nil =>
            refine ⟨[], ?_⟩
            have ht : ([] : List Ev) = t := by
              have := h
              simp [runQueue] at this
              exact this.symm
            simp [← ht]
        | cons ev rest =>
            rw [runQueue] at h
            by_cases hsd : isShutdown ev
            · rw [if_pos hsd] at h
              injection h with h
              obtain ⟨ht, hb⟩ := Prod.mk.injEq .. ▸ h
              exact absurd hb.symm (by simp)
            · rw [if_neg hsd] at h
              cases hrec : runQueue emits isShutdown fuel (rest ++ emits ev) with
              | none =>
                  rw [hrec] at h
                  exact absurd h (by simp)
              | some p =>
                  obtain ⟨t0, b0⟩ := p
                  rw [hrec] at h
                  injection h with h
                  obtain ⟨ht, hb⟩ := Prod.mk.injEq .. ▸ h
                  subst hb
                  obtain ⟨t2, ht2⟩ := ih (rest ++ emits ev) t0 hrec
                  refine ⟨emits ev ++ t2, ?_⟩
                  rw [← ht, ht2]
                  simp

/-- Witness for `fifo_dispatch_amended`: a two-event queue with no shutdown
and no callback-emitted events drains in FIFO order. -/
theorem fifo_dispatch_amended_witness :
    putEvent ([] : List Nat) 1 = [1] ∧
    (∃ t', ([1, 2] : List Nat) = [1, 2] ++ t') :=
  ⟨(fifo_dispatch_amended (fun (_ : Nat) => []) (fun _ => false)).1 [] 1,
   (fifo_dispatch_amended (fun (_ : Nat) => []) (fun _ => false)).2.2
     2 [1, 2] [1, 2] (by decide)⟩

end Tenjint
